import Mathlib

/-!
Shallow embedding of the stack-deployment driver of the
`dnanexus-aws-oidc-helper` scripts
(`deploy-dnanexus-stack.py`, `deploy-ocid-provider-stack.py`,
`create_oidc_provider.py`) together with the event-logging and
policy-placeholder-substitution helpers, plus theorems settling the
frozen claims about them.

Modelling conventions:
* The CloudFormation client is a record of the responses the provider
  would give: the outcome of the one `create_stack` call, the outcome of
  the one `update_stack` call, the stream of statuses successive
  `describe_stacks` calls return, and the event list
  `describe_stack_events` returns.
* Side effects (API calls, `time.sleep`, `logging.*`) are recorded in an
  explicit action trace.
* `datetime` values are modelled as integers; the scripts'
  `Timestamp.replace(tzinfo=timezone.utc)` normalisation is the identity
  in this model (both sides of every comparison are UTC).
* The Python functions are infinite loops bounded here by explicit fuel;
  running out of fuel yields `none` (the Python code would still be
  polling).
-/

/-- Python logging levels used by the scripts. -/
inductive LogLevel
  | info
  | warning
  | error
  deriving DecidableEq

/-- One emitted log record: level and formatted message. -/
structure LogLine where
  level : LogLevel
  msg : String
  deriving DecidableEq

/-- The boto3 CloudFormation requests the scripts issue. -/
inductive ApiCall
  | createStack (stackName templateBody : String) (capabilities : List String)
  | updateStack (stackName templateBody : String) (capabilities : List String)
  | describeStacks (stackName : String)
  | describeStackEvents (stackName : String)
  deriving DecidableEq

/-- One observable action of a script run: an API request, a
`time.sleep(seconds)` call, or a log record. -/
inductive Act
  | api (c : ApiCall)
  | sleep (seconds : Nat)
  | log (l : LogLine)
  deriving DecidableEq

/-- A `botocore` client error as the scripts inspect it: `str(e)` (used
for the `AlreadyExistsException` substring test) and
`e.response['Error']['Message']`. -/
structure ClientError where
  strRepr : String
  message : String
  deriving DecidableEq

/-- One entry of `response['StackEvents']`, with the fields the scripts
read.  `resourceStatusReason` is `none` when the key is absent
(`event.get('ResourceStatusReason', '')` then yields `""`). -/
structure StackEvent where
  timestamp : Int
  resourceStatus : String
  resourceType : String
  logicalResourceId : String
  resourceStatusReason : Option String
  deriving DecidableEq

/-- The provider's behaviour for one script run: result of the
`create_stack` request, result of the `update_stack` request, the status
returned by the k-th `describe_stacks` poll, and the event list returned
by `describe_stack_events`. -/
structure CfnClient where
  createResult : Except ClientError String
  updateResult : Except ClientError String
  statuses : Nat → String
  events : List StackEvent

/-- Boolean prefix test on character lists (the scripts' string matching
is embedded at the `List Char` level). -/
def isPrefixList : List Char → List Char → Bool
  | [], _ => true
  | _ :: _, [] => false
  | a :: as, b :: bs => a == b && isPrefixList as bs

/-- Python `needle in hay` substring containment on character lists. -/
def containsSub (needle : List Char) : List Char → Bool
  | [] => isPrefixList needle []
  | c :: rest => isPrefixList needle (c :: rest) || containsSub needle rest

/-- Python `sub in hay` on strings. -/
def strContains (hay sub : String) : Bool :=
  containsSub sub.data hay.data

/-- Python `s.endswith(suffix)`. -/
def strEndsWith (s suffix : String) : Bool :=
  isPrefixList suffix.data.reverse s.data.reverse

/-- The failure-status list both deploy scripts use, in
`get_stack_events` and the polling loop. -/
def knownFailureStatuses : List String :=
  ["CREATE_FAILED", "UPDATE_ROLLBACK_COMPLETE",
   "UPDATE_ROLLBACK_COMPLETE_CLEANUP_IN_PROGRESS"]

/-- The polling loop's first test: `stack_status.endswith('_COMPLETE')`. -/
def isCompleteStatus (s : String) : Bool :=
  strEndsWith s "_COMPLETE"

/-- The polling loop's second test: membership in the failure list. -/
def isKnownFailure (s : String) : Bool :=
  decide (s ∈ knownFailureStatuses)

/-- A status on which the polling loop stops (either branch). -/
def isTerminalStatus (s : String) : Bool :=
  isCompleteStatus s || isKnownFailure s

/-- The reason string the scripts read:
`event.get('ResourceStatusReason', '')`. -/
def eventReason (e : StackEvent) : String :=
  e.resourceStatusReason.getD ""

/-- The message `get_stack_events` formats for one event. -/
def eventMessage (e : StackEvent) : String :=
  toString e.timestamp ++ " - " ++ e.resourceStatus ++ " - " ++
    e.resourceType ++ " - " ++ e.logicalResourceId ++ " - " ++ eventReason e

/-- The error condition of `get_stack_events`: resource status in the
failure list, or reason containing `"already exists"`. -/
def isErrorEvent (e : StackEvent) : Bool :=
  decide (e.resourceStatus ∈ knownFailureStatuses) ||
    strContains (eventReason e) "already exists"

/-- The log record `get_stack_events` emits for one (filtered) event. -/
def classifyEvent (e : StackEvent) : LogLine :=
  if isErrorEvent e then ⟨.error, eventMessage e⟩ else ⟨.info, eventMessage e⟩

/-- Embedding of `get_stack_events` (identical in
`deploy-dnanexus-stack.py` lines 96-105 and
`deploy-ocid-provider-stack.py` lines 136-153): iterate over the events,
keep those with `event_time >= start_time`, log each at error or info
level according to `classifyEvent`.  Returns the emitted log records in
order. -/
def get_stack_events (events : List StackEvent) (start_time : Int) : List LogLine :=
  events.filterMap fun e =>
    if start_time ≤ e.timestamp then some (classifyEvent e) else none

/-- Embedding of `get_stack_status`: the k-th `describe_stacks` call
returns `response['Stacks'][0]['StackStatus']`, i.e. the k-th entry of
the client's status stream. -/
def get_stack_status (client : CfnClient) (k : Nat) : String :=
  client.statuses k

/-- The capabilities list passed to every create/update request. -/
def capabilities : List String :=
  ["CAPABILITY_NAMED_IAM"]

/-- Embedding of the `while True:` polling loop of
`deploy_cloudformation_stack` (both deploy scripts): poll the status,
log it; on a `_COMPLETE` suffix log completion and break (the function
then returns True); else on a failure-list status log the error, fetch
the events and return False; else `time.sleep(5)` and repeat.  `k` is
the index of the next `describe_stacks` call, `fuel` bounds the number
of iterations modelled; `none` means the loop is still running. -/
def pollLoop (client : CfnClient) (stack_name : String) (start_time : Int) :
    Nat → Nat → Option Bool × List Act
  | 0, _ => (none, [])
  | fuel + 1, k =>
    if isCompleteStatus (get_stack_status client k) then
      (some true,
       [.api (.describeStacks stack_name),
        .log ⟨.info, "Current stack status: " ++ get_stack_status client k⟩,
        .log ⟨.info, "Stack operation completed with status: " ++
          get_stack_status client k⟩])
    else if isKnownFailure (get_stack_status client k) then
      (some false,
       [.api (.describeStacks stack_name),
        .log ⟨.info, "Current stack status: " ++ get_stack_status client k⟩,
        .log ⟨.error, "Stack operation failed with status: " ++
          get_stack_status client k⟩,
        .api (.describeStackEvents stack_name)] ++
         (get_stack_events client.events start_time).map .log)
    else
      ((pollLoop client stack_name start_time fuel (k + 1)).1,
       .api (.describeStacks stack_name) ::
       .log ⟨.info, "Current stack status: " ++ get_stack_status client k⟩ ::
       .sleep 5 :: (pollLoop client stack_name start_time fuel (k + 1)).2)

/-- Embedding of `deploy_cloudformation_stack` of
`deploy-dnanexus-stack.py` (lines 107-158) and
`deploy-ocid-provider-stack.py` (lines 155-218); the two bodies are
identical.  The template file read is modelled by passing
`template_body` directly; `start_time` is the recorded watermark;
`fuel` bounds the polling loop.  Returns the result
(`none` = still polling) and the action trace. -/
def deploy_cloudformation_stack (template_body stack_name profile : String)
    (update_stack : Bool) (client : CfnClient) (start_time : Int)
    (fuel : Nat) : Option Bool × List Act :=
  let profileLog : Act := .log ⟨.info, "Using AWS profile: " ++ profile⟩
  let createCall : Act := .api (.createStack stack_name template_body capabilities)
  match client.createResult with
  | .ok stackId =>
    let p := pollLoop client stack_name start_time fuel 0
    (p.1, profileLog :: createCall ::
      .log ⟨.info, "Stack creation initiated: " ++ stackId⟩ :: p.2)
  | .error e =>
    if strContains e.strRepr "AlreadyExistsException" then
      if update_stack then
        match client.updateResult with
        | .ok stackId =>
          let p := pollLoop client stack_name start_time fuel 0
          (p.1, profileLog :: createCall ::
            .log ⟨.warning, "Stack " ++ stack_name ++ " already exists. Updating stack."⟩ ::
            .api (.updateStack stack_name template_body capabilities) ::
            .log ⟨.info, "Stack update initiated: " ++ stackId⟩ :: p.2)
        | .error ue =>
          (some false,
           [profileLog, createCall,
            .log ⟨.warning, "Stack " ++ stack_name ++ " already exists. Updating stack."⟩,
            .api (.updateStack stack_name template_body capabilities),
            .log ⟨.error, "Failed to update stack: " ++ ue.message⟩,
            .api (.describeStackEvents stack_name)] ++
             (get_stack_events client.events start_time).map .log)
      else
        (some false,
         [profileLog, createCall,
          .log ⟨.error, "Stack " ++ stack_name ++
            " already exists. Use --update-stack to update the existing stack."⟩])
    else
      (some false,
       [profileLog, createCall,
        .log ⟨.error, "Failed to create stack: " ++ e.message⟩,
        .api (.describeStackEvents stack_name)] ++
         (get_stack_events client.events start_time).map .log)

namespace CreateOidcProvider

/-- The provider behaviour the `create_oidc_provider.py` variant can
observe: only the `create_stack` outcome. -/
structure Client where
  createResult : Except ClientError String

/-- Embedding of `deploy_cloudformation_stack` of
`create_oidc_provider.py` (lines 161-188): issue the create request;
on success log the stack id and return True, on any client error log
the message and return False.  No polling, no update fallback. -/
def deploy_cloudformation_stack (template_body stack_name profile : String)
    (client : Client) : Bool × List Act :=
  let profileLog : Act := .log ⟨.info, "Using AWS profile: " ++ profile⟩
  let createCall : Act := .api (.createStack stack_name template_body capabilities)
  match client.createResult with
  | .ok stackId =>
    (true, [profileLog, createCall,
      .log ⟨.info, "Stack creation initiated: " ++ stackId⟩])
  | .error e =>
    (false, [profileLog, createCall,
      .log ⟨.error, "Failed to create stack: " ++ e.message⟩])

end CreateOidcProvider

/-- Projection of a trace to the API calls it contains. -/
def apiCalls (tr : List Act) : List ApiCall :=
  tr.filterMap fun a => match a with | .api c => some c | _ => none

/-- Whether an API call is an `update_stack` request. -/
def isUpdateCall : ApiCall → Bool
  | .updateStack _ _ _ => true
  | _ => false

/-- Whether an API call is a `create_stack` request. -/
def isCreateCall : ApiCall → Bool
  | .createStack _ _ _ => true
  | _ => false

/-- Number of `describe_stacks` polls recorded in a trace. -/
def countPolls (tr : List Act) : Nat :=
  tr.countP fun a => match a with
    | .api (.describeStacks _) => true
    | _ => false

/-- Number of `time.sleep` calls recorded in a trace. -/
def countSleeps (tr : List Act) : Nat :=
  tr.countP fun a => match a with
    | .sleep _ => true
    | _ => false

/-- Python `s.replace(pat, repl)` embedded on character lists: scan left
to right, replace each leftmost occurrence of `pat` by `repl`, and
continue scanning after the inserted replacement.  (The scripts only
call this with non-empty patterns; for an empty pattern this model
leaves the string unchanged.) -/
def replaceAll (pat repl : List Char) : List Char → List Char
  | [] => []
  | c :: rest =>
    if h : pat ≠ [] ∧ isPrefixList pat (c :: rest) = true then
      repl ++ replaceAll pat repl ((c :: rest).drop pat.length)
    else
      c :: replaceAll pat repl rest
termination_by l => l.length
decreasing_by
  · simp only [List.length_drop, List.length_cons]
    have : 0 < pat.length := List.length_pos.mpr h.1
    omega
  · simp

/-- Python `s.replace(pat, repl)` on strings. -/
def strReplace (s pat repl : String) : String :=
  String.mk (replaceAll pat.data repl.data s.data)

/-- The data mapping `replace_policy_placeholders` reads; a `none` field
is an absent key (Python raises `KeyError` on lookup). -/
structure PolicyData where
  Aud : Option String
  ProjectId : Option String
  LaunchedBy : Option String
  BucketName : Option String
  deriving DecidableEq

/-- Python `data[key]`: the value, or a `KeyError` when the key is
absent. -/
def getRequired (v : Option String) (key : String) : Except String String :=
  match v with
  | some s => Except.ok s
  | none => Except.error ("KeyError: " ++ key)

/-- Embedding of `replace_policy_placeholders` (identical in
`deploy-dnanexus-stack.py` lines 63-69 and `create_oidc_provider.py`
lines 110-125).  `json.dumps` / `json.loads` are modelled as the
identity between the document and its serialisation: the function takes
the serialised policy document and returns the serialised result.  Each
`data[...]` lookup happens at its `str.replace` line, so the `KeyError`
for an absent key (modelled as `Except.error`) is raised in the same
order as in Python. -/
def replace_policy_placeholders (policy_str : String) (data : PolicyData) :
    Except String String := do
  let aud ← getRequired data.Aud "Aud"
  let s1 := strReplace policy_str "placeholder_aud" aud
  let pid ← getRequired data.ProjectId "ProjectId"
  let s2 := strReplace s1 "placeholder_project_id" pid
  let lb ← getRequired data.LaunchedBy "LaunchedBy"
  let s3 := strReplace s2 "placeholder_launched_by" lb
  let bn ← getRequired data.BucketName "BucketName"
  return strReplace s3 "<YOUR_BUCKET_NAME>" bn

/-- The four placeholder tokens, in the order the function substitutes
them. -/
def placeholderTokens : List String :=
  ["placeholder_aud", "placeholder_project_id", "placeholder_launched_by",
   "<YOUR_BUCKET_NAME>"]

/-- Interleave a separator between document pieces: the spec-side
decomposition of a document into the text between the occurrences of a
placeholder token. -/
def joinWith (sep : List Char) : List (List Char) → List Char
  | [] => []
  | [p] => p
  | p :: q :: rest => p ++ sep ++ joinWith sep (q :: rest)

/-- Whether `pat` has a nonempty proper border (a proper suffix equal to
a proper prefix).  Border-free patterns admit no occurrence straddling
the boundary of an explicitly placed occurrence. -/
def hasBorder (pat : List Char) : Bool :=
  (List.range pat.length).any fun k =>
    k != 0 && decide (pat.drop (pat.length - k) = pat.take k)

theorem isPrefixList_iff (p l : List Char) : isPrefixList p l = true ↔ p <+: l := by
  induction p generalizing l with
  | nil => simp [isPrefixList]
  | cons a as ih =>
    cases l with
    | nil => simp [isPrefixList]
    | cons b bs => simp [isPrefixList, ih, List.cons_prefix_cons]

theorem infix_of_tail {pat : List Char} {c : Char} {l : List Char}
    (h : pat <:+: l) : pat <:+: c :: l := by
  obtain ⟨s, t, rfl⟩ := h
  exact ⟨c :: s, t, rfl⟩

theorem infix_of_pre {pat l : List Char} (h : pat <+: l) : pat <:+: l := by
  obtain ⟨t, rfl⟩ := h
  exact ⟨[], t, rfl⟩

theorem pre_of_append_of_le {p u w : List Char} (h : p <+: u ++ w)
    (hl : p.length ≤ u.length) : p <+: u := by
  obtain ⟨t, ht⟩ := h
  have hp : p = u.take p.length := by
    have h1 := congrArg (List.take p.length) ht
    rwa [List.take_left, List.take_append_of_le_length hl] at h1
  rw [hp]
  exact ⟨u.drop p.length, List.take_append_drop _ _⟩

theorem no_straddle_match {pat u v : List Char} (hb : hasBorder pat = false)
    (hu0 : u ≠ []) (hinf : ¬ pat <:+: u) : ¬ pat <+: u ++ (pat ++ v) := by
  intro hp
  by_cases hlen : pat.length ≤ u.length
  · exact hinf (infix_of_pre (pre_of_append_of_le hp hlen))
  · push_neg at hlen
    obtain ⟨t, ht⟩ := hp
    have hn : 0 < u.length := List.length_pos.mpr hu0
    have hdrop : pat.drop u.length ++ t = pat ++ v := by
      have h1 := congrArg (List.drop u.length) ht
      rwa [List.drop_append_of_le_length (le_of_lt hlen), List.drop_left] at h1
    have hkey : pat.drop u.length = pat.take (pat.length - u.length) := by
      have h2 := congrArg (List.take (pat.length - u.length)) hdrop
      rwa [List.take_left' (by simp), List.take_append_of_le_length (by omega)] at h2
    have hbt : hasBorder pat = true := by
      unfold hasBorder
      rw [List.any_eq_true]
      refine ⟨pat.length - u.length, List.mem_range.mpr (by omega), ?_⟩
      simp only [Bool.and_eq_true, bne_iff_ne, ne_eq, decide_eq_true_eq]
      refine ⟨by omega, ?_⟩
      have hmk : pat.length - (pat.length - u.length) = u.length := by omega
      rw [hmk]
      exact hkey
    rw [hbt] at hb
    exact Bool.noConfusion hb

theorem replaceAll_nil (pat repl : List Char) : replaceAll pat repl [] = [] := by
  simp [replaceAll]

theorem replaceAll_cons_no_match (pat repl : List Char) {c : Char} {rest : List Char}
    (h : ¬ pat <+: c :: rest) :
    replaceAll pat repl (c :: rest) = c :: replaceAll pat repl rest := by
  have hnp : ¬ (pat ≠ [] ∧ isPrefixList pat (c :: rest) = true) := by
    rintro ⟨-, hp⟩
    exact h ((isPrefixList_iff _ _).mp hp)
  simp only [replaceAll]
  rw [dif_neg hnp]

theorem replaceAll_not_occurs (pat repl : List Char) :
    ∀ s : List Char, ¬ pat <:+: s → replaceAll pat repl s = s := by
  intro s
  induction s with
  | nil => intro _; exact replaceAll_nil pat repl
  | cons c rest ih =>
    intro h
    rw [replaceAll_cons_no_match pat repl fun hp => h (infix_of_pre hp)]
    rw [ih fun hi => h (infix_of_tail hi)]

theorem replaceAll_head_match (pat repl : List Char) (hne : pat ≠ []) (v : List Char) :
    replaceAll pat repl (pat ++ v) = repl ++ replaceAll pat repl v := by
  obtain ⟨c, pat', rfl⟩ : ∃ c pat', pat = c :: pat' := by
    cases pat with
    | nil => exact absurd rfl hne
    | cons c p => exact ⟨c, p, rfl⟩
  have hcond : (c :: pat') ≠ [] ∧
      isPrefixList (c :: pat') (c :: (pat' ++ v)) = true :=
    ⟨by simp, (isPrefixList_iff _ _).mpr ⟨v, rfl⟩⟩
  show replaceAll (c :: pat') repl (c :: (pat' ++ v)) = _
  simp only [replaceAll]
  rw [dif_pos hcond]
  congr 1
  have hd : (c :: (pat' ++ v)).drop (c :: pat').length = v := by
    simp [List.drop_left]
  rw [hd]

theorem replaceAll_first_match (pat repl : List Char) (hne : pat ≠ [])
    (hb : hasBorder pat = false) :
    ∀ u v : List Char, ¬ pat <:+: u →
      replaceAll pat repl (u ++ pat ++ v) = u ++ repl ++ replaceAll pat repl v := by
  intro u
  induction u with
  | nil =>
    intro v _
    simpa using replaceAll_head_match pat repl hne v
  | cons c u' ih =>
    intro v hu
    have h1 : ¬ pat <+: (c :: u') ++ (pat ++ v) :=
      no_straddle_match hb (by simp) hu
    have h1' : ¬ pat <+: c :: (u' ++ pat ++ v) := by
      rw [← List.append_assoc] at h1
      exact h1
    have hu' : ¬ pat <:+: u' := fun hi => hu (infix_of_tail hi)
    show replaceAll pat repl (c :: (u' ++ pat ++ v)) = _
    rw [replaceAll_cons_no_match pat repl h1', ih v hu']
    simp [List.append_assoc]

theorem replaceAll_joinWith (pat repl : List Char) (hne : pat ≠ [])
    (hb : hasBorder pat = false) :
    ∀ parts : List (List Char), (∀ p ∈ parts, ¬ pat <:+: p) →
      replaceAll pat repl (joinWith pat parts) = joinWith repl parts := by
  intro parts
  induction parts with
  | nil => intro _; simp [joinWith, replaceAll_nil]
  | cons p rest ih =>
    intro hp
    cases rest with
    | nil =>
      simp only [joinWith]
      exact replaceAll_not_occurs pat repl p (hp p (by simp))
    | cons q rest' =>
      simp only [joinWith]
      rw [replaceAll_first_match pat repl hne hb p _ (hp p (by simp))]
      rw [ih fun x hx => hp x (by simp [hx])]

theorem placeholderTokens_ok :
    ∀ tok ∈ placeholderTokens, tok.data ≠ [] ∧ hasBorder tok.data = false := by
  decide

theorem apiCalls_log_map (ls : List LogLine) : apiCalls (ls.map Act.log) = [] := by
  induction ls with
  | nil => rfl
  | cons l rest ih => simpa [apiCalls] using ih

theorem apiCalls_append (t1 t2 : List Act) :
    apiCalls (t1 ++ t2) = apiCalls t1 ++ apiCalls t2 := by
  simp [apiCalls, List.filterMap_append]

theorem pollLoop_stops_at_first_complete (client : CfnClient) (stack_name : String)
    (start_time : Int) :
    ∀ (d k fuel : Nat), d < fuel →
      (∀ j, j < d → isCompleteStatus (client.statuses (k + j)) = false ∧
        isKnownFailure (client.statuses (k + j)) = false) →
      isCompleteStatus (client.statuses (k + d)) = true →
      (pollLoop client stack_name start_time fuel k).1 = some true ∧
      countPolls (pollLoop client stack_name start_time fuel k).2 = d + 1 ∧
      Act.api (ApiCall.describeStackEvents stack_name) ∉
        (pollLoop client stack_name start_time fuel k).2 := by
  intro d
  induction d with
  | zero =>
    intro k fuel hf hpre hc
    obtain ⟨f, rfl⟩ : ∃ f, fuel = f + 1 := ⟨fuel - 1, by omega⟩
    have hc' : isCompleteStatus (get_stack_status client k) = true := by
      simpa [get_stack_status] using hc
    simp only [pollLoop]
    rw [if_pos hc']
    refine ⟨rfl, rfl, ?_⟩
    simp [List.mem_cons]
  | succ d ih =>
    intro k fuel hf hpre hc
    obtain ⟨f, rfl⟩ : ∃ f, fuel = f + 1 := ⟨fuel - 1, by omega⟩
    have h0 := hpre 0 (by omega)
    rw [Nat.add_zero] at h0
    have h0c : ¬ isCompleteStatus (get_stack_status client k) = true := by
      simp [get_stack_status, h0.1]
    have h0f : ¬ isKnownFailure (get_stack_status client k) = true := by
      simp [get_stack_status, h0.2]
    have hpre' : ∀ j, j < d → isCompleteStatus (client.statuses (k + 1 + j)) = false ∧
        isKnownFailure (client.statuses (k + 1 + j)) = false := by
      intro j hj
      have h := hpre (j + 1) (by omega)
      have e : k + (j + 1) = k + 1 + j := by omega
      rwa [e] at h
    have hc' : isCompleteStatus (client.statuses (k + 1 + d)) = true := by
      have e : k + (d + 1) = k + 1 + d := by omega
      rwa [e] at hc
    obtain ⟨ih1, ih2, ih3⟩ := ih (k + 1) f (by omega) hpre' hc'
    simp only [pollLoop]
    rw [if_neg h0c, if_neg h0f]
    refine ⟨ih1, ?_, ?_⟩
    · simp only [countPolls, List.countP_cons] at ih2 ⊢
      simp [ih2]
    · simp only [List.mem_cons, not_or]
      exact ⟨by simp, by simp, by simp, fun h => ih3 h⟩

theorem pollLoop_no_mutating (client : CfnClient) (stack_name : String)
    (start_time : Int) :
    ∀ (fuel k : Nat),
      (apiCalls (pollLoop client stack_name start_time fuel k).2).filter isUpdateCall = [] ∧
      (apiCalls (pollLoop client stack_name start_time fuel k).2).filter isCreateCall = [] := by
  intro fuel
  induction fuel with
  | zero => intro k; exact ⟨rfl, rfl⟩
  | succ f ih =>
    intro k
    simp only [pollLoop]
    by_cases h1 : isCompleteStatus (get_stack_status client k) = true
    · rw [if_pos h1]
      exact ⟨rfl, rfl⟩
    · rw [if_neg h1]
      by_cases h2 : isKnownFailure (get_stack_status client k) = true
      · rw [if_pos h2]
        constructor
        · simp [apiCalls, List.filterMap_append, apiCalls_log_map, isUpdateCall,
            List.filter_cons]
        · simp [apiCalls, List.filterMap_append, apiCalls_log_map, isCreateCall,
            List.filter_cons]
      · rw [if_neg h2]
        obtain ⟨ihu, ihc⟩ := ih (k + 1)
        constructor
        · simpa [apiCalls, isUpdateCall, List.filter_cons] using ihu
        · simpa [apiCalls, isCreateCall, List.filter_cons] using ihc

theorem pollLoop_sleeps_are_five (client : CfnClient) (stack_name : String)
    (start_time : Int) :
    ∀ (fuel k : Nat) (x : Nat),
      Act.sleep x ∈ (pollLoop client stack_name start_time fuel k).2 → x = 5 := by
  intro fuel
  induction fuel with
  | zero => intro k x h; simp [pollLoop] at h
  | succ f ih =>
    intro k x h
    simp only [pollLoop] at h
    by_cases h1 : isCompleteStatus (get_stack_status client k) = true
    · rw [if_pos h1] at h
      simp [List.mem_cons] at h
    · rw [if_neg h1] at h
      by_cases h2 : isKnownFailure (get_stack_status client k) = true
      · rw [if_pos h2] at h
        simp [List.mem_cons, List.mem_append, List.mem_map] at h
      · rw [if_neg h2] at h
        simp only [List.mem_cons] at h
        rcases h with h | h | h | h
        · exact absurd h (by simp)
        · exact absurd h (by simp)
        · exact (Act.sleep.injEq x 5).mp h
        · exact ih (k + 1) x h

theorem pollLoop_none_iff (client : CfnClient) (stack_name : String)
    (start_time : Int) :
    ∀ (fuel k : Nat),
      (pollLoop client stack_name start_time fuel k).1 = none ↔
        ∀ j, j < fuel → isTerminalStatus (client.statuses (k + j)) = false := by
  intro fuel
  induction fuel with
  | zero =>
    intro k
    simp [pollLoop]
  | succ f ih =>
    intro k
    simp only [pollLoop]
    by_cases h1 : isCompleteStatus (get_stack_status client k) = true
    · rw [if_pos h1]
      constructor
      · intro h; exact absurd h (by simp)
      · intro h
        have := h 0 (by omega)
        rw [isTerminalStatus] at this
        simp [get_stack_status] at h1
        simp [h1] at this
    · rw [if_neg h1]
      by_cases h2 : isKnownFailure (get_stack_status client k) = true
      · rw [if_pos h2]
        constructor
        · intro h; exact absurd h (by simp)
        · intro h
          have := h 0 (by omega)
          rw [isTerminalStatus] at this
          simp [get_stack_status] at h2
          simp [h2] at this
      · rw [if_neg h2]
        constructor
        · intro h j hj
          cases j with
          | zero =>
            have h1' : isCompleteStatus (client.statuses k) = false := by
              simpa [get_stack_status] using h1
            have h2' : isKnownFailure (client.statuses k) = false := by
              simpa [get_stack_status] using h2
            simp [isTerminalStatus, h1', h2']
          | succ j' =>
            have := (ih (k + 1)).mp h j' (by omega)
            have e : k + 1 + j' = k + (j' + 1) := by omega
            rwa [e] at this
        · intro h
          refine (ih (k + 1)).mpr ?_
          intro j hj
          have := h (j + 1) (by omega)
          have e : k + (j + 1) = k + 1 + j := by omega
          rwa [e] at this

theorem pollLoop_diverges (client : CfnClient) (stack_name : String)
    (start_time : Int) :
    ∀ (fuel k : Nat), (∀ j, isTerminalStatus (client.statuses j) = false) →
      (pollLoop client stack_name start_time fuel k).1 = none ∧
      countPolls (pollLoop client stack_name start_time fuel k).2 = fuel ∧
      countSleeps (pollLoop client stack_name start_time fuel k).2 = fuel := by
  intro fuel
  induction fuel with
  | zero => intro k _; exact ⟨rfl, rfl, rfl⟩
  | succ f ih =>
    intro k h
    have hk := h k
    rw [isTerminalStatus, Bool.or_eq_false_iff] at hk
    have h1 : ¬ isCompleteStatus (get_stack_status client k) = true := by
      simp [get_stack_status, hk.1]
    have h2 : ¬ isKnownFailure (get_stack_status client k) = true := by
      simp [get_stack_status, hk.2]
    obtain ⟨ih1, ih2, ih3⟩ := ih (k + 1) h
    simp only [pollLoop]
    rw [if_neg h1, if_neg h2]
    refine ⟨ih1, ?_, ?_⟩
    · simp only [countPolls, List.countP_cons] at ih2 ⊢
      simp [ih2]
    · simp only [countSleeps, List.countP_cons] at ih3 ⊢
      simp [ih3]

theorem get_stack_events_eq_filter (events : List StackEvent) (start_time : Int) :
    get_stack_events events start_time =
      (events.filter fun e => decide (start_time ≤ e.timestamp)).map classifyEvent := by
  induction events with
  | nil => rfl
  | cons e rest ih =>
    by_cases h : start_time ≤ e.timestamp
    · simp [get_stack_events, List.filterMap_cons, List.filter_cons, h] at ih ⊢
      exact ih
    · simp [get_stack_events, List.filterMap_cons, List.filter_cons, h] at ih ⊢
      exact ih

/-- The client behaviour refuting claim C1: the create request succeeds
and the very first polled status is `UPDATE_ROLLBACK_COMPLETE`, a member
of the known-failure list. -/
def c1Client : CfnClient :=
  ⟨Except.ok "StackId-1", Except.ok "StackId-1",
   fun _ => "UPDATE_ROLLBACK_COMPLETE", []⟩

/-- C1 (code bug evaluation): `UPDATE_ROLLBACK_COMPLETE` is in the
known-failure list, yet when it is the first polled status,
`deploy_cloudformation_stack` returns True (success) and never calls
`describe_stack_events`, because the `endswith('_COMPLETE')` test on
line 149 (dnanexus variant; line 209 in the ocid variant) runs before
the failure-list test on line 152 (212) and `UPDATE_ROLLBACK_COMPLETE`
ends in `_COMPLETE`.  The claim (and the code's own failure list, whose
`UPDATE_ROLLBACK_COMPLETE` entry is unreachable) says the function
should log the events and return False. -/
theorem C1_update_rollback_complete_returns_true :
    "UPDATE_ROLLBACK_COMPLETE" ∈ knownFailureStatuses ∧
    isKnownFailure "UPDATE_ROLLBACK_COMPLETE" = true ∧
    isCompleteStatus "UPDATE_ROLLBACK_COMPLETE" = true ∧
    (deploy_cloudformation_stack "body" "stk" "prof" false c1Client 0 1).1 =
      some true ∧
    Act.api (ApiCall.describeStackEvents "stk") ∉
      (deploy_cloudformation_stack "body" "stk" "prof" false c1Client 0 1).2 := by
  decide

/-- C2: if the create submission succeeds and the k-th polled status is
the first one whose name ends in `_COMPLETE` (all earlier polled
statuses being non-terminal) and it is not in the rollback-failure list,
then the function returns True, performs exactly k+1 status polls
(stopping at that status), and never fetches stack events. -/
theorem C2_first_complete_status_succeeds
    (template_body stack_name profile : String) (update_stack : Bool)
    (client : CfnClient) (start_time : Int) (sid : String) (k fuel : Nat)
    (hcreate : client.createResult = Except.ok sid)
    (hbefore : ∀ j, j < k → isCompleteStatus (client.statuses j) = false ∧
      isKnownFailure (client.statuses j) = false)
    (hcomplete : isCompleteStatus (client.statuses k) = true)
    (hnotfail : isKnownFailure (client.statuses k) = false)
    (hfuel : k < fuel) :
    (deploy_cloudformation_stack template_body stack_name profile update_stack
        client start_time fuel).1 = some true ∧
    countPolls (deploy_cloudformation_stack template_body stack_name profile
        update_stack client start_time fuel).2 = k + 1 ∧
    Act.api (ApiCall.describeStackEvents stack_name) ∉
      (deploy_cloudformation_stack template_body stack_name profile update_stack
        client start_time fuel).2 := by
  have hpre : ∀ j, j < k → isCompleteStatus (client.statuses (0 + j)) = false ∧
      isKnownFailure (client.statuses (0 + j)) = false := by
    intro j hj
    simpa using hbefore j hj
  have hc : isCompleteStatus (client.statuses (0 + k)) = true := by simpa using hcomplete
  obtain ⟨h1, h2, h3⟩ :=
    pollLoop_stops_at_first_complete client stack_name start_time k 0 fuel hfuel hpre hc
  simp only [deploy_cloudformation_stack, hcreate]
  refine ⟨h1, ?_, ?_⟩
  · simp only [countPolls, List.countP_cons] at h2 ⊢
    simp [h2]
  · simp only [List.mem_cons, not_or]
    exact ⟨by simp, by simp, by simp, fun h => h3 h⟩

/-- The client behaviour for the C2 witness: one non-terminal status,
then `CREATE_COMPLETE`. -/
def c2Client : CfnClient :=
  ⟨Except.ok "StackId-1", Except.ok "StackId-1",
   fun j => if j = 0 then "CREATE_IN_PROGRESS" else "CREATE_COMPLETE", []⟩

theorem C2_witness :
    c2Client.createResult = Except.ok "StackId-1" ∧
    (∀ j, j < 1 → isCompleteStatus (c2Client.statuses j) = false ∧
      isKnownFailure (c2Client.statuses j) = false) ∧
    isCompleteStatus (c2Client.statuses 1) = true ∧
    isKnownFailure (c2Client.statuses 1) = false ∧
    ((deploy_cloudformation_stack "body" "stk" "prof" false c2Client 0 3).1 =
        some true ∧
      countPolls (deploy_cloudformation_stack "body" "stk" "prof" false c2Client
        0 3).2 = 1 + 1 ∧
      Act.api (ApiCall.describeStackEvents "stk") ∉
        (deploy_cloudformation_stack "body" "stk" "prof" false c2Client 0 3).2) := by
  have hb : ∀ j, j < 1 → isCompleteStatus (c2Client.statuses j) = false ∧
      isKnownFailure (c2Client.statuses j) = false := by
    intro j hj
    have hj0 : j = 0 := by omega
    subst hj0
    decide
  exact ⟨rfl, hb, by decide, by decide,
    C2_first_complete_status_succeeds "body" "stk" "prof" false c2Client 0
      "StackId-1" 1 3 rfl hb (by decide) (by decide) (by omega)⟩

/-- C3: when the create request fails with an already-exists error and
the update flag is set, the driver issues exactly one update request —
with the same stack name, template body and capabilities — and exactly
one create request (no create retry); and if the update request itself
fails, the result is False and the trace ends with the
`describe_stack_events` fetch and the event log lines since
`start_time`. -/
theorem C3_update_fallback (template_body stack_name profile : String)
    (client : CfnClient) (start_time : Int) (fuel : Nat) (e : ClientError)
    (hcreate : client.createResult = Except.error e)
    (hae : strContains e.strRepr "AlreadyExistsException" = true) :
    (apiCalls (deploy_cloudformation_stack template_body stack_name profile true
        client start_time fuel).2).filter isUpdateCall =
      [ApiCall.updateStack stack_name template_body capabilities] ∧
    (apiCalls (deploy_cloudformation_stack template_body stack_name profile true
        client start_time fuel).2).filter isCreateCall =
      [ApiCall.createStack stack_name template_body capabilities] ∧
    (∀ ue, client.updateResult = Except.error ue →
      (deploy_cloudformation_stack template_body stack_name profile true client
        start_time fuel).1 = some false ∧
      (deploy_cloudformation_stack template_body stack_name profile true client
        start_time fuel).2 =
        [Act.log ⟨LogLevel.info, "Using AWS profile: " ++ profile⟩,
         Act.api (ApiCall.createStack stack_name template_body capabilities),
         Act.log ⟨LogLevel.warning,
           "Stack " ++ stack_name ++ " already exists. Updating stack."⟩,
         Act.api (ApiCall.updateStack stack_name template_body capabilities),
         Act.log ⟨LogLevel.error, "Failed to update stack: " ++ ue.message⟩,
         Act.api (ApiCall.describeStackEvents stack_name)] ++
          (get_stack_events client.events start_time).map Act.log) := by
  obtain ⟨hu, hc⟩ := pollLoop_no_mutating client stack_name start_time fuel 0
  rcases hup : client.updateResult with ue | sid
  · simp only [deploy_cloudformation_stack, hcreate, hae, if_true, hup]
    refine ⟨?_, ?_, ?_⟩
    · rw [apiCalls_append, apiCalls_log_map, List.append_nil]
      rfl
    · rw [apiCalls_append, apiCalls_log_map, List.append_nil]
      rfl
    · intro ue' hue
      injection hue with h
      subst h
      exact ⟨by simp, rfl⟩
  · simp only [deploy_cloudformation_stack, hcreate, hae, if_true, hup]
    refine ⟨?_, ?_, ?_⟩
    · show ApiCall.updateStack stack_name template_body capabilities ::
        (apiCalls (pollLoop client stack_name start_time fuel 0).2).filter
          isUpdateCall =
        [ApiCall.updateStack stack_name template_body capabilities]
      rw [hu]
    · show ApiCall.createStack stack_name template_body capabilities ::
        (apiCalls (pollLoop client stack_name start_time fuel 0).2).filter
          isCreateCall =
        [ApiCall.createStack stack_name template_body capabilities]
      rw [hc]
    · intro ue hue
      exact absurd hue (by simp)

/-- The client behaviour for the C3 witness: create fails with an
already-exists client error, and the update request fails too. -/
def c3Client : CfnClient :=
  ⟨Except.error ⟨"An error occurred (AlreadyExistsException)", "Stack already exists"⟩,
   Except.error ⟨"An error occurred (ValidationError)", "No updates are to be performed."⟩,
   fun _ => "CREATE_IN_PROGRESS", []⟩

theorem C3_witness :
    c3Client.createResult =
      Except.error ⟨"An error occurred (AlreadyExistsException)", "Stack already exists"⟩ ∧
    strContains "An error occurred (AlreadyExistsException)"
      "AlreadyExistsException" = true ∧
    ((apiCalls (deploy_cloudformation_stack "body" "stk" "prof" true c3Client
        0 3).2).filter isUpdateCall = [ApiCall.updateStack "stk" "body" capabilities] ∧
     (apiCalls (deploy_cloudformation_stack "body" "stk" "prof" true c3Client
        0 3).2).filter isCreateCall = [ApiCall.createStack "stk" "body" capabilities] ∧
     (∀ ue, c3Client.updateResult = Except.error ue →
       (deploy_cloudformation_stack "body" "stk" "prof" true c3Client 0 3).1 =
         some false ∧
       (deploy_cloudformation_stack "body" "stk" "prof" true c3Client 0 3).2 =
         [Act.log ⟨LogLevel.info, "Using AWS profile: " ++ "prof"⟩,
          Act.api (ApiCall.createStack "stk" "body" capabilities),
          Act.log ⟨LogLevel.warning,
            "Stack " ++ "stk" ++ " already exists. Updating stack."⟩,
          Act.api (ApiCall.updateStack "stk" "body" capabilities),
          Act.log ⟨LogLevel.error, "Failed to update stack: " ++ ue.message⟩,
          Act.api (ApiCall.describeStackEvents "stk")] ++
           (get_stack_events c3Client.events 0).map Act.log)) := by
  exact ⟨rfl, by decide,
    C3_update_fallback "body" "stk" "prof" c3Client 0 3
      ⟨"An error occurred (AlreadyExistsException)", "Stack already exists"⟩
      rfl (by decide)⟩

/-- C4: when the create request fails with an already-exists error and
the update flag is not set, the function returns False and its whole
trace is the profile log, the single (failed) create request and the
error log — in particular no update request and no mutating request
beyond the failed create attempt. -/
theorem C4_no_update_without_flag (template_body stack_name profile : String)
    (client : CfnClient) (start_time : Int) (fuel : Nat) (e : ClientError)
    (hcreate : client.createResult = Except.error e)
    (hae : strContains e.strRepr "AlreadyExistsException" = true) :
    deploy_cloudformation_stack template_body stack_name profile false client
        start_time fuel =
      (some false,
       [Act.log ⟨LogLevel.info, "Using AWS profile: " ++ profile⟩,
        Act.api (ApiCall.createStack stack_name template_body capabilities),
        Act.log ⟨LogLevel.error, "Stack " ++ stack_name ++
          " already exists. Use --update-stack to update the existing stack."⟩]) ∧
    (apiCalls (deploy_cloudformation_stack template_body stack_name profile false
        client start_time fuel).2).filter isUpdateCall = [] := by
  constructor
  · simp only [deploy_cloudformation_stack, hcreate, hae, if_true]
    rfl
  · simp only [deploy_cloudformation_stack, hcreate, hae, if_true]
    simp [apiCalls, isUpdateCall, List.filter_cons]

theorem C4_witness :
    c3Client.createResult =
      Except.error ⟨"An error occurred (AlreadyExistsException)", "Stack already exists"⟩ ∧
    strContains "An error occurred (AlreadyExistsException)"
      "AlreadyExistsException" = true ∧
    (deploy_cloudformation_stack "body" "stk" "prof" false c3Client 0 3 =
      (some false,
       [Act.log ⟨LogLevel.info, "Using AWS profile: " ++ "prof"⟩,
        Act.api (ApiCall.createStack "stk" "body" capabilities),
        Act.log ⟨LogLevel.error, "Stack " ++ "stk" ++
          " already exists. Use --update-stack to update the existing stack."⟩]) ∧
     (apiCalls (deploy_cloudformation_stack "body" "stk" "prof" false c3Client
        0 3).2).filter isUpdateCall = []) := by
  exact ⟨rfl, by decide,
    C4_no_update_without_flag "body" "stk" "prof" c3Client 0 3
      ⟨"An error occurred (AlreadyExistsException)", "Stack already exists"⟩
      rfl (by decide)⟩

theorem isErrorEvent_iff (e : StackEvent) :
    isErrorEvent e = true ↔
      (e.resourceStatus ∈ knownFailureStatuses ∨
        strContains (eventReason e) "already exists" = true) := by
  simp [isErrorEvent, Bool.or_eq_true, decide_eq_true_eq]

/-- C5: `replace_policy_placeholders` fails loudly (raises `KeyError`,
modelled as `Except.error`) whenever one of the four required values is
absent from the data mapping; when all four are present it returns the
document with the four substitutions applied in order, each with its
corresponding value; and each substitution step replaces every
occurrence of its token: on any document decomposed into pieces that do
not contain the token, joined by the token, the step yields the same
pieces joined by the supplied value. -/
theorem C5_placeholder_substitution :
    (∀ (data : PolicyData) (doc : String),
      (data.Aud = none ∨ data.ProjectId = none ∨ data.LaunchedBy = none ∨
        data.BucketName = none) →
      ∃ msg, replace_policy_placeholders doc data = Except.error msg) ∧
    (∀ (doc aud pid lb bn : String),
      replace_policy_placeholders doc ⟨some aud, some pid, some lb, some bn⟩ =
        Except.ok (strReplace (strReplace (strReplace (strReplace doc
          "placeholder_aud" aud) "placeholder_project_id" pid)
          "placeholder_launched_by" lb) "<YOUR_BUCKET_NAME>" bn)) ∧
    (∀ tok, tok ∈ placeholderTokens →
      ∀ (repl : String) (parts : List (List Char)),
        (∀ p ∈ parts, ¬ tok.data <:+: p) →
        replaceAll tok.data repl.data (joinWith tok.data parts) =
          joinWith repl.data parts) := by
  refine ⟨?_, ?_, ?_⟩
  · intro data doc h
    rcases data with ⟨a, p, l, b⟩
    cases a with
    | none => exact ⟨"KeyError: Aud", rfl⟩
    | some av =>
      cases p with
      | none => exact ⟨"KeyError: ProjectId", rfl⟩
      | some pv =>
        cases l with
        | none => exact ⟨"KeyError: LaunchedBy", rfl⟩
        | some lv =>
          cases b with
          | none => exact ⟨"KeyError: BucketName", rfl⟩
          | some bv => simp at h
  · intro doc aud pid lb bn
    rfl
  · intro tok htok repl parts hp
    obtain ⟨hne, hb⟩ := placeholderTokens_ok tok htok
    exact replaceAll_joinWith tok.data repl.data hne hb parts hp

theorem C5_witness :
    ((⟨none, some "P", some "L", some "B"⟩ : PolicyData).Aud = none ∨
      (⟨none, some "P", some "L", some "B"⟩ : PolicyData).ProjectId = none ∨
      (⟨none, some "P", some "L", some "B"⟩ : PolicyData).LaunchedBy = none ∨
      (⟨none, some "P", some "L", some "B"⟩ : PolicyData).BucketName = none) ∧
    (∃ msg, replace_policy_placeholders "doc"
      ⟨none, some "P", some "L", some "B"⟩ = Except.error msg) ∧
    "placeholder_aud" ∈ placeholderTokens ∧
    (∀ p ∈ [['d'], ['c']], ¬ "placeholder_aud".data <:+: p) ∧
    replaceAll "placeholder_aud".data "A".data
        (joinWith "placeholder_aud".data [['d'], ['c']]) =
      joinWith "A".data [['d'], ['c']] := by
  refine ⟨Or.inl rfl, ?_, by decide, by decide, ?_⟩
  · exact C5_placeholder_substitution.1 ⟨none, some "P", some "L", some "B"⟩
      "doc" (Or.inl rfl)
  · exact C5_placeholder_substitution.2.2 "placeholder_aud" (by decide)
      "A" [['d'], ['c']] (by decide)

/-- C6: `get_stack_events` logs exactly the classifications of the
events whose timestamp is at or after `start_time`, in order — in
particular no event strictly before the watermark is logged. -/
theorem C6_event_watermark_filter (events : List StackEvent) (start_time : Int) :
    get_stack_events events start_time =
      (events.filter fun e => decide (start_time ≤ e.timestamp)).map
        classifyEvent := by
  exact get_stack_events_eq_filter events start_time

/-- C7: every event passing the start-time filter is logged, and its
record is at error level if and only if its resource status is in the
known-failure list or its reason contains `"already exists"`; otherwise
it is at info level. -/
theorem C7_event_classification (events : List StackEvent) (start_time : Int)
    (e : StackEvent) (he : e ∈ events) (ht : start_time ≤ e.timestamp) :
    classifyEvent e ∈ get_stack_events events start_time ∧
    ((classifyEvent e).level = LogLevel.error ↔
      (e.resourceStatus ∈ knownFailureStatuses ∨
        strContains (eventReason e) "already exists" = true)) ∧
    ((classifyEvent e).level = LogLevel.info ↔
      ¬ (e.resourceStatus ∈ knownFailureStatuses ∨
        strContains (eventReason e) "already exists" = true)) := by
  refine ⟨?_, ?_, ?_⟩
  · rw [get_stack_events_eq_filter]
    exact List.mem_map_of_mem _ (List.mem_filter.mpr ⟨he, by simpa using ht⟩)
  · by_cases hb : isErrorEvent e = true
    · have hprop := (isErrorEvent_iff e).mp hb
      unfold classifyEvent
      rw [if_pos hb]
      simp [hprop]
    · have hprop : ¬ (e.resourceStatus ∈ knownFailureStatuses ∨
          strContains (eventReason e) "already exists" = true) :=
        fun h => hb ((isErrorEvent_iff e).mpr h)
      unfold classifyEvent
      rw [if_neg hb]
      simp [hprop]
  · by_cases hb : isErrorEvent e = true
    · have hprop := (isErrorEvent_iff e).mp hb
      unfold classifyEvent
      rw [if_pos hb]
      simp [hprop]
    · have hprop : ¬ (e.resourceStatus ∈ knownFailureStatuses ∨
          strContains (eventReason e) "already exists" = true) :=
        fun h => hb ((isErrorEvent_iff e).mpr h)
      unfold classifyEvent
      rw [if_neg hb]
      simp [hprop]

theorem C7_witness :
    (⟨5, "CREATE_FAILED", "AWS::IAM::Role", "MyRole", none⟩ : StackEvent) ∈
      [(⟨5, "CREATE_FAILED", "AWS::IAM::Role", "MyRole", none⟩ : StackEvent)] ∧
    (0 : Int) ≤ (⟨5, "CREATE_FAILED", "AWS::IAM::Role", "MyRole", none⟩ :
      StackEvent).timestamp ∧
    (classifyEvent ⟨5, "CREATE_FAILED", "AWS::IAM::Role", "MyRole", none⟩ ∈
      get_stack_events [⟨5, "CREATE_FAILED", "AWS::IAM::Role", "MyRole", none⟩] 0 ∧
     ((classifyEvent ⟨5, "CREATE_FAILED", "AWS::IAM::Role", "MyRole", none⟩).level =
        LogLevel.error ↔
       ((⟨5, "CREATE_FAILED", "AWS::IAM::Role", "MyRole", none⟩ :
          StackEvent).resourceStatus ∈ knownFailureStatuses ∨
        strContains (eventReason ⟨5, "CREATE_FAILED", "AWS::IAM::Role", "MyRole",
          none⟩) "already exists" = true)) ∧
     ((classifyEvent ⟨5, "CREATE_FAILED", "AWS::IAM::Role", "MyRole", none⟩).level =
        LogLevel.info ↔
       ¬ ((⟨5, "CREATE_FAILED", "AWS::IAM::Role", "MyRole", none⟩ :
          StackEvent).resourceStatus ∈ knownFailureStatuses ∨
        strContains (eventReason ⟨5, "CREATE_FAILED", "AWS::IAM::Role", "MyRole",
          none⟩) "already exists" = true))) := by
  exact ⟨by decide, by decide,
    C7_event_classification
      [⟨5, "CREATE_FAILED", "AWS::IAM::Role", "MyRole", none⟩] 0
      ⟨5, "CREATE_FAILED", "AWS::IAM::Role", "MyRole", none⟩
      (by decide) (by decide)⟩

/-- C8: after a successful submission the polling loop runs with no
timeout, backoff or iteration limit: for every fuel bound it has
terminated with a boolean if and only if some polled status within that
bound satisfies the terminal condition (suffix `_COMPLETE` or membership
in the known-failure list); every sleep it performs is exactly 5 time
units; and on a status stream with no terminal status it is still
running after every fuel bound, having polled once and slept once per
iteration. -/
theorem C8_fixed_interval_polling (client : CfnClient) (stack_name : String)
    (start_time : Int) :
    (∀ fuel k, (pollLoop client stack_name start_time fuel k).1 = none ↔
      ∀ j, j < fuel → isTerminalStatus (client.statuses (k + j)) = false) ∧
    (∀ fuel k x, Act.sleep x ∈ (pollLoop client stack_name start_time fuel k).2 →
      x = 5) ∧
    (∀ fuel k, (∀ j, isTerminalStatus (client.statuses j) = false) →
      (pollLoop client stack_name start_time fuel k).1 = none ∧
      countPolls (pollLoop client stack_name start_time fuel k).2 = fuel ∧
      countSleeps (pollLoop client stack_name start_time fuel k).2 = fuel) :=
  ⟨pollLoop_none_iff client stack_name start_time,
   pollLoop_sleeps_are_five client stack_name start_time,
   pollLoop_diverges client stack_name start_time⟩

/-- The client behaviour for the C8 witness: the status stream never
reaches a terminal status. -/
def c8Client : CfnClient :=
  ⟨Except.ok "StackId-1", Except.ok "StackId-1",
   fun _ => "CREATE_IN_PROGRESS", []⟩

theorem C8_witness :
    (∀ j, isTerminalStatus (c8Client.statuses j) = false) ∧
    ((pollLoop c8Client "stk" 0 3 0).1 = none ∧
     countPolls (pollLoop c8Client "stk" 0 3 0).2 = 3 ∧
     countSleeps (pollLoop c8Client "stk" 0 3 0).2 = 3) :=
  ⟨fun _ => rfl,
   (C8_fixed_interval_polling c8Client "stk" 0).2.2 3 0 (fun _ => rfl)⟩

/-- C9: the four substitutions are applied sequentially on the
serialised document, in the fixed order Aud, ProjectId, LaunchedBy,
BucketName (first conjunct); the substitution is not simultaneous: a
supplied value that itself contains a token substituted later in the
order is rewritten again by the later step, as the second conjunct shows
on a concrete document — the Aud value `"placeholder_project_id"` ends
up replaced by the ProjectId value `"PID"`.  The steps act on the whole
serialisation, so object keys are rewritten like any other text. -/
theorem C9_sequential_order_and_rescan :
    (∀ (doc aud pid lb bn : String),
      replace_policy_placeholders doc ⟨some aud, some pid, some lb, some bn⟩ =
        Except.ok (strReplace (strReplace (strReplace (strReplace doc
          "placeholder_aud" aud) "placeholder_project_id" pid)
          "placeholder_launched_by" lb) "<YOUR_BUCKET_NAME>" bn)) ∧
    replace_policy_placeholders "key placeholder_aud tail"
      ⟨some "placeholder_project_id", some "PID", some "LB", some "BN"⟩ =
      Except.ok "key PID tail" := by
  constructor
  · intro doc aud pid lb bn
    rfl
  · have s1 : strReplace "key placeholder_aud tail" "placeholder_aud"
        "placeholder_project_id" = "key placeholder_project_id tail" := by
      unfold strReplace
      have hsplit : ("key placeholder_aud tail").data =
          "key ".data ++ "placeholder_aud".data ++ " tail".data := by decide
      rw [hsplit]
      rw [replaceAll_first_match "placeholder_aud".data
        "placeholder_project_id".data (by decide) (by decide)
        "key ".data " tail".data (by decide)]
      rw [replaceAll_not_occurs "placeholder_aud".data
        "placeholder_project_id".data " tail".data (by decide)]
      rfl
    have s2 : strReplace "key placeholder_project_id tail"
        "placeholder_project_id" "PID" = "key PID tail" := by
      unfold strReplace
      have hsplit : ("key placeholder_project_id tail").data =
          "key ".data ++ "placeholder_project_id".data ++ " tail".data := by
        decide
      rw [hsplit]
      rw [replaceAll_first_match "placeholder_project_id".data "PID".data
        (by decide) (by decide) "key ".data " tail".data (by decide)]
      rw [replaceAll_not_occurs "placeholder_project_id".data "PID".data
        " tail".data (by decide)]
      rfl
    have s3 : strReplace "key PID tail" "placeholder_launched_by" "LB" =
        "key PID tail" := by
      unfold strReplace
      rw [replaceAll_not_occurs "placeholder_launched_by".data "LB".data
        ("key PID tail").data (by decide)]
    have s4 : strReplace "key PID tail" "<YOUR_BUCKET_NAME>" "BN" =
        "key PID tail" := by
      unfold strReplace
      rw [replaceAll_not_occurs "<YOUR_BUCKET_NAME>".data "BN".data
        ("key PID tail").data (by decide)]
    have h0 : replace_policy_placeholders "key placeholder_aud tail"
        (PolicyData.mk (some "placeholder_project_id") (some "PID") (some "LB")
          (some "BN")) =
        Except.ok (strReplace (strReplace (strReplace (strReplace
          "key placeholder_aud tail" "placeholder_aud"
          "placeholder_project_id") "placeholder_project_id" "PID")
          "placeholder_launched_by" "LB") "<YOUR_BUCKET_NAME>" "BN") := rfl
    rw [h0, s1, s2, s3, s4]

/-- C10: the `create_oidc_provider.py` variant of
`deploy_cloudformation_stack` performs no polling and has no update
fallback: it returns True as soon as the create request is submitted
without a client error, returns False on every client error (the
already-exists error is just another client error here), and in either
case its only API request is the single create call, with no
`describe_stacks` polls and no sleeps. -/
theorem C10_create_oidc_initiation_only
    (template_body stack_name profile sid : String) (e : ClientError) :
    (CreateOidcProvider.deploy_cloudformation_stack template_body stack_name
      profile ⟨Except.ok sid⟩).1 = true ∧
    (CreateOidcProvider.deploy_cloudformation_stack template_body stack_name
      profile ⟨Except.error e⟩).1 = false ∧
    (∀ r : Except ClientError String,
      apiCalls (CreateOidcProvider.deploy_cloudformation_stack template_body
        stack_name profile ⟨r⟩).2 =
        [ApiCall.createStack stack_name template_body capabilities] ∧
      countSleeps (CreateOidcProvider.deploy_cloudformation_stack template_body
        stack_name profile ⟨r⟩).2 = 0 ∧
      countPolls (CreateOidcProvider.deploy_cloudformation_stack template_body
        stack_name profile ⟨r⟩).2 = 0) := by
  refine ⟨rfl, rfl, ?_⟩
  intro r
  cases r with
  | ok sid2 => exact ⟨rfl, rfl, rfl⟩
  | error e2 => exact ⟨rfl, rfl, rfl⟩
